import Mathlib

/-!
Verification development for the Instagram media relay bot.

Shallow embedding of the link classifier, the post resolver's media
extraction, the downloader (size probe and temp-file sweep), and the
Telegram delivery coordinator (single-item send, media groups, grouping,
fallbacks, file cleanup), together with theorems settling the stated
properties.
-/

/-! ## Link classifier (`InstagramHandler`)

The handler matches `/instagram\.com\/(p|reel|tv)\/([^/?]+)/i` with
`String.match` / `RegExp.test`.  We embed the regex engine for this single
pattern: a case-insensitive literal prefix, a three-way marker alternation
(first chars `p`/`r`/`t` are pairwise distinct, so alternation order is
irrelevant and no backtracking across alternatives can change the result),
a literal `/`, and a greedy non-empty capture of characters other than
`/` and `?`.  `findMatch` scans start positions left to right exactly as
the host regex engine does. -/

/-- ASCII lowercasing, as the `i` flag applies it to this pattern. -/
def lowerChar (c : Char) : Char :=
  if 'A' ≤ c ∧ c ≤ 'Z' then Char.ofNat (c.toNat + 32) else c

/-- Strip a pattern literal off the head of the input, case-insensitively. -/
def stripPrefixCI : List Char → List Char → Option (List Char)
  | [], l => some l
  | _ :: _, [] => none
  | p :: ps, x :: xs =>
    if lowerChar x = lowerChar p then stripPrefixCI ps xs else none

/-- A character the capture group `[^/?]+` accepts. -/
def notSep (c : Char) : Bool := !(c == '/' || c == '?')

/-- The literal part `instagram.com/` of the pattern. -/
def igPat : List Char :=
  ['i', 'n', 's', 't', 'a', 'g', 'r', 'a', 'm', '.', 'c', 'o', 'm', '/']

/-- Try one alternative of `(p|reel|tv)` followed by `/` and the capture
`([^/?]+)`; returns the text of capture group 2 on success. -/
def markerCapture (mk : List Char) (l : List Char) : Option (List Char) :=
  match stripPrefixCI mk l with
  | some ('/' :: rest) =>
    let cap := rest.takeWhile notSep
    if cap.isEmpty then none else some cap
  | _ => none

/-- Match the whole pattern at the current position. -/
def matchCore (l : List Char) : Option (List Char) :=
  match stripPrefixCI igPat l with
  | none => none
  | some rest =>
    match markerCapture ['p'] rest with
    | some c => some c
    | none =>
      match markerCapture ['r', 'e', 'e', 'l'] rest with
      | some c => some c
      | none => markerCapture ['t', 'v'] rest

/-- Leftmost match: scan start positions from the left, as `match` does. -/
def findMatch : List Char → Option (List Char)
  | [] => none
  | x :: xs =>
    match matchCore (x :: xs) with
    | some c => some c
    | none => findMatch xs

namespace InstagramHandler

/-- `extractShortcode(url)`: `url.match(INSTAGRAM_URL_REGEX)` and return
capture group 2, else `null`. -/
def extractShortcode (s : String) : Option String :=
  (findMatch s.data).map (fun c => ⟨c⟩)

/-- `isInstagramUrl(url)`: `INSTAGRAM_URL_REGEX.test(url)`. -/
def isInstagramUrl (s : String) : Bool :=
  (findMatch s.data).isSome

end InstagramHandler

/-! ## Media model

`instagram.models.ts` is not among the provided sources.  Modelled from the
spec: `MediaItem` has `kind ∈ {Image, Video}`, a source URL and pixel
dimensions that default to 0 when unknown. -/

/-- Modelled from the spec: the two media kinds (`instagram.models.ts` is
missing from the sources; the extraction code only ever constructs
`MediaType.VIDEO` and `MediaType.IMAGE`). -/
inductive MediaType
  | image
  | video
  deriving DecidableEq, Repr

/-- One deliverable media unit, as built by the resolver. -/
structure MediaItem where
  type : MediaType
  url : String
  width : Nat
  height : Nat
  deriving DecidableEq, Repr

/-- JavaScript truthiness of an optional string field: `undefined` and the
empty string are falsy. -/
def truthyStr : Option String → Bool
  | none => false
  | some s => !(s == "")

/-- `x?.width || 0` on an optional dimensions object. -/
def dimWidth : Option (Nat × Nat) → Nat
  | some d => d.1
  | none => 0

/-- `x?.height || 0` on an optional dimensions object. -/
def dimHeight : Option (Nat × Nat) → Nat
  | some d => d.2
  | none => 0

/-- One `edge.node` of `edge_sidecar_to_children.edges`. -/
structure CarouselNode where
  is_video : Bool
  video_url : Option String
  display_url : Option String
  dimensions : Option (Nat × Nat)
  deriving DecidableEq, Repr

/-- One entry of the `video_versions` collection. -/
structure VideoVersion where
  url : String
  width : Option Nat
  height : Option Nat
  deriving DecidableEq, Repr

/-- One entry of `image_versions2.candidates`. -/
structure ImageCandidate where
  url : String
  width : Option Nat
  height : Option Nat
  deriving DecidableEq, Repr

/-- The fields of the upstream payload the resolver reads. -/
structure MediaData where
  typename : Option String
  edges : Option (List CarouselNode)
  is_video : Bool
  video_url : Option String
  video_versions : Option (List VideoVersion)
  display_url : Option String
  image_candidates : Option (List ImageCandidate)
  dimensions : Option (Nat × Nat)
  deriving DecidableEq, Repr

namespace InstagramService

/-- The Video item pushed for a carousel child. -/
def videoItemOf (n : CarouselNode) : MediaItem :=
  ⟨MediaType.video, n.video_url.getD "", dimWidth n.dimensions, dimHeight n.dimensions⟩

/-- The Image item pushed for a carousel child. -/
def imageItemOf (n : CarouselNode) : MediaItem :=
  ⟨MediaType.image, n.display_url.getD "", dimWidth n.dimensions, dimHeight n.dimensions⟩

/-- The `for (const edge of edges)` loop of `extractCarouselMedia`,
accumulating `items.push(...)` results. -/
def extractCarouselMediaLoop : List CarouselNode → List MediaItem → List MediaItem
  | [], acc => acc
  | n :: rest, acc =>
    if n.is_video && truthyStr n.video_url then
      extractCarouselMediaLoop rest (acc ++ [videoItemOf n])
    else if truthyStr n.display_url then
      extractCarouselMediaLoop rest (acc ++ [imageItemOf n])
    else
      extractCarouselMediaLoop rest acc

/-- `extractCarouselMedia`: iterate the children in order; the guard that
returns `[]` for an empty `edges` array coincides with running the loop on
the empty list. -/
def extractCarouselMedia (edges : List CarouselNode) : List MediaItem :=
  extractCarouselMediaLoop edges []

/-- `extractVideoMedia`: prefer `video_url`, else `video_versions[0]`,
else no item. -/
def extractVideoMedia (md : MediaData) : List MediaItem :=
  if truthyStr md.video_url then
    [⟨MediaType.video, md.video_url.getD "", dimWidth md.dimensions, dimHeight md.dimensions⟩]
  else
    match md.video_versions with
    | some (v :: _) => [⟨MediaType.video, v.url, v.width.getD 0, v.height.getD 0⟩]
    | _ => []

/-- `extractImageMedia`: prefer `display_url`, else
`image_versions2.candidates[0]`, else no item. -/
def extractImageMedia (md : MediaData) : List MediaItem :=
  if truthyStr md.display_url then
    [⟨MediaType.image, md.display_url.getD "", dimWidth md.dimensions, dimHeight md.dimensions⟩]
  else
    match md.image_candidates with
    | some (c :: _) => [⟨MediaType.image, c.url, c.width.getD 0, c.height.getD 0⟩]
    | _ => []

/-- `extractMediaItems` dispatch: a present `edge_sidecar_to_children.edges`
array (even an empty one — arrays are truthy) selects the carousel path;
otherwise `__typename === 'GraphVideo' || is_video` selects the video path;
otherwise the image path.  Nothing in the modelled operations throws, so
the surrounding `try/catch` is inert. -/
def extractMediaItems (md : MediaData) : List MediaItem :=
  match md.edges with
  | some edges => extractCarouselMedia edges
  | none =>
    if md.typename == some "GraphVideo" || md.is_video then
      extractVideoMedia md
    else
      extractImageMedia md

end InstagramService

/-! ## Downloader (`DownloaderService`) -/

/-- Failure modes of `downloadFile` as distinguished by the claims: the
size-ceiling rejection thrown after the probe, a probe (HEAD) transport
error, and a transfer (GET/stream) error. -/
inductive DownloadError
  | mediaTooLarge
  | probeFailed
  | transferFailed
  deriving DecidableEq, Repr

/-- The fields `downloadFile` reads off the HEAD probe response.
`contentLength = none` models an omitted `content-length` header; the code
parses `headers['content-length'] || '0'`, so an omitted header reads as 0. -/
structure ProbeResponse where
  contentType : Option String
  contentLength : Option Nat
  deriving DecidableEq, Repr

/-- Outcome of one `downloadFile` call: whether the GET transfer was ever
started, and the result (a local file path on success). -/
structure DownloadOutcome where
  transferStarted : Bool
  result : Except DownloadError String
  deriving Repr

namespace DownloaderService

/-- `downloadFile`: HEAD probe, size-ceiling check against
`maxFileSize * 1024 * 1024` bytes, then the streaming GET.  The probe and
transfer outcomes are the environment's inputs; `maxFileSize` is the
configured ceiling in megabytes. -/
def downloadFile (probe : Except Unit ProbeResponse) (maxFileSize : Nat)
    (transfer : Except Unit String) : DownloadOutcome :=
  match probe with
  | Except.error _ => ⟨false, Except.error DownloadError.probeFailed⟩
  | Except.ok p =>
    let contentLength := p.contentLength.getD 0
    if contentLength > maxFileSize * 1024 * 1024 then
      ⟨false, Except.error DownloadError.mediaTooLarge⟩
    else
      match transfer with
      | Except.ok filePath => ⟨true, Except.ok filePath⟩
      | Except.error _ => ⟨true, Except.error DownloadError.transferFailed⟩

/-- One directory entry as seen by the sweep: `stats.isFile()`, the
modification time, and whether `unlinkSync` throws for it. -/
structure TempFile where
  isFile : Bool
  mtimeMs : Nat
  unlinkFails : Bool
  deriving DecidableEq, Repr

/-- The per-file loop of `cleanupTempFiles(olderFilesOnly)`: skip
non-files; when `olderFilesOnly`, skip files whose age `now - mtimeMs` is
at most the TTL; a file whose `unlinkSync` throws is skipped and the sweep
continues.  Returns the list of entries actually deleted, in directory
order (`deletedCount` is its length). -/
def cleanupTempFiles (olderFilesOnly : Bool) (now ttl : Nat) :
    List TempFile → List TempFile
  | [] => []
  | f :: rest =>
    if !f.isFile then cleanupTempFiles olderFilesOnly now ttl rest
    else if olderFilesOnly && decide (now - f.mtimeMs ≤ ttl) then
      cleanupTempFiles olderFilesOnly now ttl rest
    else if f.unlinkFails then cleanupTempFiles olderFilesOnly now ttl rest
    else f :: cleanupTempFiles olderFilesOnly now ttl rest

end DownloaderService

/-- The hourly sweep scheduled in `TelegramHandler`'s constructor calls
`this.downloader.cleanupTempFiles()` with no argument, so
`olderFilesOnly` takes its default value `false`. -/
def telegramHourlySweep (now ttl : Nat) (files : List DownloaderService.TempFile) :
    List DownloaderService.TempFile :=
  DownloaderService.cleanupTempFiles false now ttl files

/-! ## Delivery coordinator (`TelegramHandler`)

The sends, downloads and group sends are side-effecting calls whose
success or failure is decided by the outside world; we model that world as
an `Env` of oracles indexed by the call counters kept in `St`.  `St` also
records which scratch files were created and deleted and how many media
items were actually delivered to the chat. -/

namespace TelegramHandler

/-- Outcomes of the side-effecting calls: `dlOk n` is the result of the
`n`-th `downloader.downloadMediaItem` call (`false` = the promise
rejects), `sendOk n` of the `n`-th `replyWithVideo`/`replyWithPhoto` with
a downloaded file, `urlOk n` of the `n`-th direct-URL send, `groupOk n`
of the `n`-th `replyWithMediaGroup`. -/
structure Env where
  dlOk : Nat → Bool
  sendOk : Nat → Bool
  urlOk : Nat → Bool
  groupOk : Nat → Bool

/-- Coordinator state: fresh scratch-file ids, the files created and
deleted so far, the number of media items actually delivered to the chat,
and the four call counters. -/
structure St where
  nextFile : Nat
  created : List Nat
  deleted : List Nat
  delivered : Nat
  dlN : Nat
  sendN : Nat
  urlN : Nat
  groupN : Nat
  deriving DecidableEq, Repr

/-- The state at the start of a request. -/
def initSt : St := ⟨0, [], [], 0, 0, 0, 0, 0⟩

/-- One `downloader.downloadMediaItem` call: on success a fresh scratch
file is created and its id returned; on failure no file is produced. -/
def downloadCall (env : Env) (st : St) : Option Nat × St :=
  let ok := env.dlOk st.dlN
  let st1 := { st with dlN := st.dlN + 1 }
  if ok then
    (some st1.nextFile,
      { st1 with
        nextFile := st1.nextFile + 1
        created := st1.created ++ [st1.nextFile] })
  else (none, st1)

/-- `sendMediaItem`: download, then send the file as a video or photo
(`MediaType` has exactly the two constructors, so the unknown-type branch
of the source is unreachable); the file is cleaned up after a successful
send.  If the download or the send throws, fall back to a direct-URL
send — the downloaded file, if any, is not cleaned up on that path. -/
def sendMediaItem (env : Env) (item : MediaItem) (st : St) : Bool × St :=
  match downloadCall env st with
  | (some fid, st1) =>
    let ok := env.sendOk st1.sendN
    let st2 := { st1 with sendN := st1.sendN + 1 }
    if ok then
      (true, { st2 with
        deleted := st2.deleted ++ [fid]
        delivered := st2.delivered + 1 })
    else
      let uok := env.urlOk st2.urlN
      let st3 := { st2 with urlN := st2.urlN + 1 }
      if uok then (true, { st3 with delivered := st3.delivered + 1 })
      else (false, st3)
  | (none, st1) =>
    let uok := env.urlOk st1.urlN
    let st2 := { st1 with urlN := st1.urlN + 1 }
    if uok then (true, { st2 with delivered := st2.delivered + 1 })
    else (false, st2)

/-- The `Promise.all` of downloads in `sendMediaGroup`: every download is
attempted (files of successful sibling downloads are created even when the
combined promise rejects); the combined result is `some fids` only when
every download succeeded. -/
def downloadAll (env : Env) : List MediaItem → St → Option (List Nat) × St
  | [], st => (some [], st)
  | _ :: rest, st =>
    match downloadCall env st with
    | (some fid, st1) =>
      match downloadAll env rest st1 with
      | (some fids, st2) => (some (fid :: fids), st2)
      | (none, st2) => (none, st2)
    | (none, st1) => (none, (downloadAll env rest st1).2)

/-- The individual-send loop (used both as the fallback inside
`sendMediaGroup` and as the non-grouped branch of `sendMediaItems`): send
each item with `sendMediaItem`, count successes, never abort on a
failure.  The inter-item delay has no observable effect in this model. -/
def sendEachLoop (env : Env) : List MediaItem → St → Nat × St
  | [], st => (0, st)
  | it :: rest, st =>
    match sendMediaItem env it st with
    | (b, st1) =>
      let (cnt, st2) := sendEachLoop env rest st1
      ((if b then 1 else 0) + cnt, st2)

/-- `sendMediaGroup`: empty input returns `false`; otherwise download all
items, send one album, and clean the files up only after a successful
album send.  If any download or the album send throws, fall back to
sending every item individually (which re-downloads them) and report
`true` exactly when at least one individual send succeeded; the files
downloaded for the failed album are not cleaned up. -/
def sendMediaGroup (env : Env) (items : List MediaItem) (st : St) : Bool × St :=
  if items.isEmpty then (false, st)
  else
    match downloadAll env items st with
    | (some fids, st1) =>
      let gok := env.groupOk st1.groupN
      let st2 := { st1 with groupN := st1.groupN + 1 }
      if gok then
        (true, { st2 with
          deleted := st2.deleted ++ fids
          delivered := st2.delivered + items.length })
      else
        let (cnt, st3) := sendEachLoop env items st2
        (decide (0 < cnt), st3)
    | (none, st1) =>
      let (cnt, st2) := sendEachLoop env items st1
      (decide (0 < cnt), st2)

/-- `MAX_MEDIA_GROUP_SIZE`, the Telegram album cap. -/
def MAX_MEDIA_GROUP_SIZE : Nat := 10

/-- The slicing loop of `splitIntoGroups`, with the list length as
structural fuel (each iteration drops `MAX_MEDIA_GROUP_SIZE ≥ 1` items, so
`items.length` steps always suffice; the fuel-0 case is unreachable). -/
def splitGo : Nat → List MediaItem → List (List MediaItem)
  | 0, _ => []
  | _ + 1, [] => []
  | fuel + 1, x :: xs =>
    (x :: xs).take MAX_MEDIA_GROUP_SIZE ::
      splitGo fuel ((x :: xs).drop MAX_MEDIA_GROUP_SIZE)

/-- `splitIntoGroups`: slice the list into consecutive chunks of at most
`MAX_MEDIA_GROUP_SIZE` items, in order. -/
def splitIntoGroups (items : List MediaItem) : List (List MediaItem) :=
  splitGo items.length items

/-- The per-group loop of `sendMediaItems`: send each group in order,
adding the whole group's size to the success count whenever
`sendMediaGroup` reported success; a group's failure never aborts the
loop.  The inter-group delay has no observable effect in this model. -/
def sendGroupsLoop (env : Env) : List (List MediaItem) → St → Nat × St
  | [], st => (0, st)
  | g :: rest, st =>
    match sendMediaGroup env g st with
    | (b, st1) =>
      let (cnt, st2) := sendGroupsLoop env rest st1
      ((if b then g.length else 0) + cnt, st2)

/-- `sendMediaItems`: nothing for an empty list; a single item goes
through `sendMediaItem`; multiple items go through grouped albums when
`useMediaGroups` is enabled, else through the individual loop.  The
`finally` block deletes the originating chat message, which touches no
downloaded file and is omitted here. -/
def sendMediaItems (env : Env) (useMediaGroups : Bool) (items : List MediaItem)
    (st : St) : Nat × St :=
  match items with
  | [] => (0, st)
  | [it] =>
    match sendMediaItem env it st with
    | (b, st1) => ((if b then 1 else 0), st1)
  | _ =>
    if useMediaGroups then
      sendGroupsLoop env (splitIntoGroups items) st
    else
      sendEachLoop env items st

end TelegramHandler

/-! ## Grouping (C3) -/

/-- `splitGo` joins back to the input when the fuel covers the list. -/
theorem splitGo_join : ∀ (fuel : Nat) (l : List MediaItem), l.length ≤ fuel →
    (TelegramHandler.splitGo fuel l).flatten = l := by
  intro fuel
  induction fuel with
  | zero =>
    intro l hl
    have : l = [] := List.eq_nil_of_length_eq_zero (Nat.le_zero.mp hl)
    subst this
    rfl
  | succ n ih =>
    intro l hl
    match l with
    | [] => rfl
    | x :: xs =>
      have hlen : ((x :: xs).drop TelegramHandler.MAX_MEDIA_GROUP_SIZE).length ≤ n := by
        simp only [List.length_drop]
        simp only [List.length_cons] at hl
        simp [TelegramHandler.MAX_MEDIA_GROUP_SIZE]
        omega
      simp only [TelegramHandler.splitGo, List.flatten_cons]
      rw [ih _ hlen, List.take_append_drop]

/-- `splitGo` produces `⌈length/10⌉` chunks when the fuel covers the list. -/
theorem splitGo_length : ∀ (fuel : Nat) (l : List MediaItem), l.length ≤ fuel →
    (TelegramHandler.splitGo fuel l).length = (l.length + 9) / 10 := by
  intro fuel
  induction fuel with
  | zero =>
    intro l hl
    have : l = [] := List.eq_nil_of_length_eq_zero (Nat.le_zero.mp hl)
    subst this
    rfl
  | succ n ih =>
    intro l hl
    match l with
    | [] => rfl
    | x :: xs =>
      have hlen : ((x :: xs).drop TelegramHandler.MAX_MEDIA_GROUP_SIZE).length ≤ n := by
        simp only [List.length_drop]
        simp only [List.length_cons] at hl
        simp [TelegramHandler.MAX_MEDIA_GROUP_SIZE]
        omega
      simp only [TelegramHandler.splitGo, List.length_cons]
      rw [ih _ hlen]
      simp only [List.length_drop, List.length_cons, TelegramHandler.MAX_MEDIA_GROUP_SIZE]
      omega

/-- Every chunk `splitGo` produces has at most 10 elements. -/
theorem splitGo_chunk_le : ∀ (fuel : Nat) (l : List MediaItem) (g : List MediaItem),
    g ∈ TelegramHandler.splitGo fuel l → g.length ≤ 10 := by
  intro fuel
  induction fuel with
  | zero => intro l g hg; simp [TelegramHandler.splitGo] at hg
  | succ n ih =>
    intro l g hg
    match l with
    | [] => simp [TelegramHandler.splitGo] at hg
    | x :: xs =>
      simp only [TelegramHandler.splitGo, List.mem_cons] at hg
      rcases hg with hg | hg
      · subst hg
        simp [TelegramHandler.MAX_MEDIA_GROUP_SIZE]
      · exact ih _ _ hg

/-- C3 (grouping law): for every list of `K` items with `K > 1` and the
platform cap `MAX_MEDIA_GROUP_SIZE = 10`, `splitIntoGroups` produces
exactly `⌈K/10⌉` groups, each of size at most 10, whose concatenation in
group order is the original list in its original order. -/
theorem splitIntoGroups_grouping_law (items : List MediaItem)
    (h : 1 < items.length) :
    (TelegramHandler.splitIntoGroups items).length = (items.length + 9) / 10 ∧
    (∀ g ∈ TelegramHandler.splitIntoGroups items,
      g.length ≤ TelegramHandler.MAX_MEDIA_GROUP_SIZE) ∧
    (TelegramHandler.splitIntoGroups items).flatten = items := by
  refine ⟨?_, ?_, ?_⟩
  · exact splitGo_length items.length items le_rfl
  · intro g hg
    exact splitGo_chunk_le items.length items g hg
  · exact splitGo_join items.length items le_rfl

/-- Witness for C3: a concrete list of 12 items splits into 2 groups of
sizes 10 and 2, concatenating back to the input. -/
theorem splitIntoGroups_grouping_law_witness :
    1 < (List.replicate 12 (⟨MediaType.image, "u", 0, 0⟩ : MediaItem)).length ∧
    ((TelegramHandler.splitIntoGroups
        (List.replicate 12 ⟨MediaType.image, "u", 0, 0⟩)).length
      = ((List.replicate 12 (⟨MediaType.image, "u", 0, 0⟩ : MediaItem)).length + 9) / 10 ∧
    (∀ g ∈ TelegramHandler.splitIntoGroups
        (List.replicate 12 ⟨MediaType.image, "u", 0, 0⟩),
      g.length ≤ TelegramHandler.MAX_MEDIA_GROUP_SIZE) ∧
    (TelegramHandler.splitIntoGroups
        (List.replicate 12 ⟨MediaType.image, "u", 0, 0⟩)).flatten
      = List.replicate 12 ⟨MediaType.image, "u", 0, 0⟩) :=
  ⟨by decide, splitIntoGroups_grouping_law _ (by decide)⟩

/-! ## Downloader size ceiling (C6) and sweep (C9) -/

/-- C6: given a probe response, `downloadFile` fails with `MediaTooLarge`
without starting the transfer exactly when the declared content length
exceeds `maxFileSize` megabytes; an omitted `content-length` header is
parsed as 0, so the transfer then proceeds unchecked. -/
theorem downloadFile_size_ceiling (probe : Except Unit ProbeResponse)
    (maxFileSize : Nat) (transfer : Except Unit String) (p : ProbeResponse)
    (hp : probe = Except.ok p) :
    (((DownloaderService.downloadFile probe maxFileSize transfer).result
        = Except.error DownloadError.mediaTooLarge ∧
      (DownloaderService.downloadFile probe maxFileSize transfer).transferStarted
        = false) ↔
      maxFileSize * 1024 * 1024 < p.contentLength.getD 0) ∧
    (p.contentLength = none →
      (DownloaderService.downloadFile probe maxFileSize transfer).transferStarted
        = true) := by
  subst hp
  constructor
  · by_cases hbig : maxFileSize * 1024 * 1024 < p.contentLength.getD 0
    · simp [DownloaderService.downloadFile, hbig]
    · cases transfer <;> simp [DownloaderService.downloadFile, hbig]
  · intro hnone
    have : ¬ (maxFileSize * 1024 * 1024 < p.contentLength.getD 0) := by
      rw [hnone]
      simp
    cases transfer <;> simp [DownloaderService.downloadFile, this]

/-- Witness for C6: a 60 MB declared length against a 50 MB ceiling is
rejected before the transfer, and an omitted header lets the transfer
start. -/
theorem downloadFile_size_ceiling_witness :
    (((DownloaderService.downloadFile
        (Except.ok ⟨some "video/mp4", some (60 * 1024 * 1024)⟩) 50
        (Except.ok "f")).result = Except.error DownloadError.mediaTooLarge ∧
      (DownloaderService.downloadFile
        (Except.ok ⟨some "video/mp4", some (60 * 1024 * 1024)⟩) 50
        (Except.ok "f")).transferStarted = false) ↔
      50 * 1024 * 1024
        < (Option.some (60 * 1024 * 1024)).getD 0) ∧
    ((Option.none : Option Nat) = none →
      (DownloaderService.downloadFile
        (Except.ok ⟨some "video/mp4", (none : Option Nat)⟩) 50
        (Except.ok "f")).transferStarted = true) :=
  ⟨(downloadFile_size_ceiling _ 50 _ ⟨some "video/mp4", some (60 * 1024 * 1024)⟩ rfl).1,
   (downloadFile_size_ceiling _ 50 _ ⟨some "video/mp4", none⟩ rfl).2⟩

/-- C9: the hourly sweep scheduled by `TelegramHandler`'s constructor
(`cleanupTempFiles()` with the default `olderFilesOnly = false`) deletes a
regular file of age 0 ms — a file younger than the TTL, such as one owned
by an in-flight delivery — while the TTL-respecting call
(`olderFilesOnly = true`) skips the very same file. -/
theorem telegramHourlySweep_deletes_young_file :
    telegramHourlySweep 1000 (30 * 60 * 1000)
        [⟨true, 1000, false⟩] = [⟨true, 1000, false⟩] ∧
    DownloaderService.cleanupTempFiles true 1000 (30 * 60 * 1000)
        [⟨true, 1000, false⟩] = [] :=
  ⟨rfl, rfl⟩

/-! ## Single-item delivery fallback (C7) -/

/-- C7: `sendMediaItem` first downloads and sends the file; the direct-URL
fallback is attempted exactly when the download or the file send failed
(`urlN` counts fallback attempts), and the item is reported failed exactly
when the primary path failed and the URL fallback also failed. -/
theorem sendMediaItem_url_fallback (env : TelegramHandler.Env)
    (item : MediaItem) :
    ((TelegramHandler.sendMediaItem env item TelegramHandler.initSt).1 = false ↔
      ((env.dlOk 0 = false ∨ env.sendOk 0 = false) ∧ env.urlOk 0 = false)) ∧
    (TelegramHandler.sendMediaItem env item TelegramHandler.initSt).2.urlN
      = (if env.dlOk 0 && env.sendOk 0 then 0 else 1) := by
  cases hdl : env.dlOk 0 <;> cases hs : env.sendOk 0 <;> cases hu : env.urlOk 0 <;>
    simp [TelegramHandler.sendMediaItem, TelegramHandler.downloadCall,
      TelegramHandler.initSt, hdl, hs, hu]

/-! ## Carousel extraction (C4) and video extraction (C8) -/

/-- The claim's per-child classification, written from its words: a child
both self-reporting as video and exposing a usable video source yields a
Video item; any other child with a display URL yields an Image item; the
rest are skipped. -/
def carouselEmitSpec (n : CarouselNode) : Option MediaItem :=
  if n.is_video && truthyStr n.video_url then some (InstagramService.videoItemOf n)
  else if truthyStr n.display_url then some (InstagramService.imageItemOf n)
  else none

/-- A child with neither a usable video source nor a display URL. -/
def skippedChild (n : CarouselNode) : Bool :=
  !(n.is_video && truthyStr n.video_url) && !truthyStr n.display_url

/-- The push loop accumulates exactly the `filterMap` of the per-child
classification, in order. -/
theorem extractCarouselMediaLoop_eq_filterMap :
    ∀ (nodes : List CarouselNode) (acc : List MediaItem),
      InstagramService.extractCarouselMediaLoop nodes acc
        = acc ++ nodes.filterMap carouselEmitSpec := by
  intro nodes
  induction nodes with
  | nil => intro acc; simp [InstagramService.extractCarouselMediaLoop]
  | cons n rest ih =>
    intro acc
    by_cases hv : (n.is_video && truthyStr n.video_url) = true
    · simp [InstagramService.extractCarouselMediaLoop, hv, ih,
        carouselEmitSpec]
    · by_cases hd : truthyStr n.display_url = true
      · simp [InstagramService.extractCarouselMediaLoop, hv, hd, ih,
          carouselEmitSpec]
      · simp [InstagramService.extractCarouselMediaLoop, hv, hd, ih,
          carouselEmitSpec]

/-- The classification emits an item exactly for the non-skipped children. -/
theorem filterMap_carouselEmitSpec_length :
    ∀ nodes : List CarouselNode,
      (nodes.filterMap carouselEmitSpec).length
        = nodes.length - nodes.countP skippedChild := by
  intro nodes
  induction nodes with
  | nil => rfl
  | cons n rest ih =>
    have hle := List.countP_le_length (p := skippedChild) (l := rest)
    by_cases hv : (n.is_video && truthyStr n.video_url) = true
    · simp [carouselEmitSpec, skippedChild, hv, List.countP_cons, ih]
      omega
    · by_cases hd : truthyStr n.display_url = true
      · simp [carouselEmitSpec, skippedChild, hv, hd, List.countP_cons, ih]
        omega
      · simp [carouselEmitSpec, skippedChild, hv, hd, List.countP_cons, ih]

/-- C4: for a carousel of `N` children of which `M` have neither a usable
video source nor a display URL, `extractCarouselMedia` emits the per-child
classification of every non-skipped child in the children's original
relative order (the `filterMap`), hence exactly `N − M` items; skipped
children produce nothing and no error. -/
theorem extractCarouselMedia_spec (edges : List CarouselNode) :
    InstagramService.extractCarouselMedia edges
      = edges.filterMap carouselEmitSpec ∧
    (InstagramService.extractCarouselMedia edges).length
      = edges.length - edges.countP skippedChild := by
  constructor
  · simpa [InstagramService.extractCarouselMedia] using
      extractCarouselMediaLoop_eq_filterMap edges []
  · rw [show InstagramService.extractCarouselMedia edges
        = edges.filterMap carouselEmitSpec by
      simpa [InstagramService.extractCarouselMedia] using
        extractCarouselMediaLoop_eq_filterMap edges []]
    exact filterMap_carouselEmitSpec_length edges

/-- C8: for a non-carousel payload self-reporting as video (type tag
`GraphVideo` or the boolean flag), `extractMediaItems` emits exactly one
Video item, preferring `video_url` and falling back to
`video_versions[0]`; with neither source it returns the empty list rather
than throwing. -/
theorem extractMediaItems_video_spec (md : MediaData)
    (he : md.edges = none)
    (hv : md.typename = some "GraphVideo" ∨ md.is_video = true) :
    (truthyStr md.video_url = true →
      InstagramService.extractMediaItems md
        = [⟨MediaType.video, md.video_url.getD "",
            dimWidth md.dimensions, dimHeight md.dimensions⟩]) ∧
    (truthyStr md.video_url = false →
      ∀ (v : VideoVersion) (rest : List VideoVersion),
        md.video_versions = some (v :: rest) →
        InstagramService.extractMediaItems md
          = [⟨MediaType.video, v.url, v.width.getD 0, v.height.getD 0⟩]) ∧
    (truthyStr md.video_url = false →
      (md.video_versions = none ∨ md.video_versions = some []) →
      InstagramService.extractMediaItems md = []) := by
  have hsel : (md.typename == some "GraphVideo" || md.is_video) = true := by
    rcases hv with hv | hv <;> simp [hv]
  refine ⟨?_, ?_, ?_⟩
  · intro htruthy
    simp [InstagramService.extractMediaItems, he, hsel,
      InstagramService.extractVideoMedia, htruthy]
  · intro htruthy v rest hvv
    simp [InstagramService.extractMediaItems, he, hsel,
      InstagramService.extractVideoMedia, htruthy, hvv]
  · intro htruthy hvv
    rcases hvv with hvv | hvv <;>
      simp [InstagramService.extractMediaItems, he, hsel,
        InstagramService.extractVideoMedia, htruthy, hvv]

/-- Witness for C8: concrete payloads for the three cases (primary URL
present; only `video_versions`; neither source). -/
theorem extractMediaItems_video_spec_witness :
    InstagramService.extractMediaItems
        ⟨some "GraphVideo", none, true, some "https://cdn/x.mp4", none, none,
          none, none⟩
      = [⟨MediaType.video, "https://cdn/x.mp4", 0, 0⟩] ∧
    InstagramService.extractMediaItems
        ⟨none, none, true, none, some [⟨"https://cdn/v0.mp4", some 720,
          some 1280⟩], none, none, none⟩
      = [⟨MediaType.video, "https://cdn/v0.mp4", 720, 1280⟩] ∧
    InstagramService.extractMediaItems
        ⟨some "GraphVideo", none, true, none, none, none, none, none⟩ = [] :=
  ⟨(extractMediaItems_video_spec _ rfl (Or.inl rfl)).1 rfl,
   (extractMediaItems_video_spec
      ⟨none, none, true, none, some [⟨"https://cdn/v0.mp4", some 720,
        some 1280⟩], none, none, none⟩ rfl (Or.inr rfl)).2.1 rfl _ _ rfl,
   (extractMediaItems_video_spec _ rfl (Or.inl rfl)).2.2 rfl (Or.inl rfl)⟩

/-! ## Link classifier theorems (C5, C10) -/

/-- A capture returned by one alternative is non-empty (`[^/?]+`). -/
theorem markerCapture_ne_nil (mk l c : List Char)
    (h : markerCapture mk l = some c) : c ≠ [] := by
  unfold markerCapture at h
  split at h
  case _ rest heq =>
    dsimp only at h
    split at h
    · exact absurd h (by simp)
    case _ hne =>
      intro hnil
      apply hne
      rw [Option.some.injEq] at h
      rw [h, hnil]
      rfl
  case _ => exact absurd h (by simp)

/-- A capture returned by the whole pattern is non-empty. -/
theorem matchCore_ne_nil (l c : List Char) (h : matchCore l = some c) :
    c ≠ [] := by
  unfold matchCore at h
  split at h
  · exact absurd h (by simp)
  case _ rest heq =>
    split at h
    case _ c1 h1 =>
      rw [Option.some.injEq] at h
      exact h ▸ markerCapture_ne_nil _ _ _ h1
    case _ h1 =>
      split at h
      case _ c2 h2 =>
        rw [Option.some.injEq] at h
        exact h ▸ markerCapture_ne_nil _ _ _ h2
      case _ h2 => exact markerCapture_ne_nil _ _ _ h
  
/-- A capture returned by the leftmost scan is non-empty. -/
theorem findMatch_ne_nil : ∀ (l c : List Char), findMatch l = some c → c ≠ [] := by
  intro l
  induction l with
  | nil => intro c h; exact absurd h (by simp [findMatch])
  | cons x xs ih =>
    intro c h
    unfold findMatch at h
    split at h
    case _ c1 h1 =>
      rw [Option.some.injEq] at h
      exact h ▸ matchCore_ne_nil _ _ h1
    case _ => exact ih _ h

/-- C10: the gate and the extractor share the pattern: `isInstagramUrl`
accepts a string exactly when `extractShortcode` returns a (necessarily
non-empty) shortcode for it, so a message accepted by the gate never
subsequently fails extraction. -/
theorem isInstagramUrl_iff_extractShortcode (s : String) :
    InstagramHandler.isInstagramUrl s = true ↔
      ∃ c, InstagramHandler.extractShortcode s = some c ∧ c ≠ "" := by
  unfold InstagramHandler.isInstagramUrl InstagramHandler.extractShortcode
  cases h : findMatch s.data with
  | none => simp
  | some c =>
    simp only [Option.isSome_some, Option.map_some, true_iff]
    refine ⟨⟨c⟩, rfl, fun he => ?_⟩
    exact findMatch_ne_nil _ _ h (by simpa using congrArg String.data he)

/-- `takeWhile` collects exactly the capture up to the first separator. -/
theorem takeWhile_notSep_append (c : List Char) (sep : Char) (w : List Char)
    (hc : ∀ ch ∈ c, notSep ch = true) (hsep : notSep sep = false) :
    (c ++ sep :: w).takeWhile notSep = c := by
  induction c with
  | nil => simp [List.takeWhile_cons, hsep]
  | cons a c' ih =>
    have ha : notSep a = true := hc a (by simp)
    simp only [List.cons_append, List.takeWhile_cons, ha, if_true]
    rw [ih (fun ch hch => hc ch (by simp [hch]))]

/-- Evaluating the whole pattern right after its literal part. -/
theorem matchCore_eval (rest : List Char) :
    matchCore (igPat ++ rest)
      = (match markerCapture ['p'] rest with
         | some c => some c
         | none =>
           match markerCapture ['r', 'e', 'e', 'l'] rest with
           | some c => some c
           | none => markerCapture ['t', 'v'] rest) := rfl

/-- Evaluating the `p` alternative on a `p/` head. -/
theorem markerCapture_p_eval (rest : List Char) :
    markerCapture ['p'] ('p' :: '/' :: rest)
      = (if (rest.takeWhile notSep).isEmpty then none
         else some (rest.takeWhile notSep)) := rfl

/-- Evaluating the `reel` alternative on a `reel/` head. -/
theorem markerCapture_reel_eval (rest : List Char) :
    markerCapture ['r', 'e', 'e', 'l'] ('r' :: 'e' :: 'e' :: 'l' :: '/' :: rest)
      = (if (rest.takeWhile notSep).isEmpty then none
         else some (rest.takeWhile notSep)) := rfl

/-- Evaluating the `tv` alternative on a `tv/` head. -/
theorem markerCapture_tv_eval (rest : List Char) :
    markerCapture ['t', 'v'] ('t' :: 'v' :: '/' :: rest)
      = (if (rest.takeWhile notSep).isEmpty then none
         else some (rest.takeWhile notSep)) := rfl

/-- The pattern matches right at the start of
`instagram.com/<marker>/<capture><separator-suffix>`, capturing exactly
the run before the separator. -/
theorem matchCore_hit (m c v : List Char)
    (hm : m = ['p'] ∨ m = ['r', 'e', 'e', 'l'] ∨ m = ['t', 'v'])
    (hc : c ≠ []) (hch : ∀ ch ∈ c, notSep ch = true)
    (hv : ∃ w, v = '/' :: w ∨ v = '?' :: w) :
    matchCore (igPat ++ (m ++ '/' :: (c ++ v))) = some c := by
  obtain ⟨w, hw⟩ := hv
  have hcv : (c ++ v).takeWhile notSep = c := by
    rcases hw with hw | hw <;> rw [hw] <;>
      exact takeWhile_notSep_append c _ w hch rfl
  have hne : ((c ++ v).takeWhile notSep).isEmpty = false := by
    rw [hcv]
    cases c with
    | nil => exact absurd rfl hc
    | cons a c' => rfl
  have hne2 : c.isEmpty = false := by
    cases c with
    | nil => exact absurd rfl hc
    | cons a c' => rfl
  rcases hm with hm | hm | hm <;> subst hm
  · have e1 : markerCapture ['p'] (['p'] ++ '/' :: (c ++ v)) = some c := by
      show markerCapture ['p'] ('p' :: '/' :: (c ++ v)) = some c
      rw [markerCapture_p_eval, hcv, hne2]
      rfl
    rw [matchCore_eval, e1]
  · have e0 : markerCapture ['p']
        (['r', 'e', 'e', 'l'] ++ '/' :: (c ++ v)) = none := rfl
    have e1 : markerCapture ['r', 'e', 'e', 'l']
        (['r', 'e', 'e', 'l'] ++ '/' :: (c ++ v)) = some c := by
      show markerCapture ['r', 'e', 'e', 'l']
        ('r' :: 'e' :: 'e' :: 'l' :: '/' :: (c ++ v)) = some c
      rw [markerCapture_reel_eval, hcv, hne2]
      rfl
    rw [matchCore_eval, e0, e1]
  · have e0p : markerCapture ['p']
        (['t', 'v'] ++ '/' :: (c ++ v)) = none := rfl
    have e0r : markerCapture ['r', 'e', 'e', 'l']
        (['t', 'v'] ++ '/' :: (c ++ v)) = none := rfl
    have e1 : markerCapture ['t', 'v']
        (['t', 'v'] ++ '/' :: (c ++ v)) = some c := by
      show markerCapture ['t', 'v'] ('t' :: 'v' :: '/' :: (c ++ v)) = some c
      rw [markerCapture_tv_eval, hcv, hne2]
      rfl
    rw [matchCore_eval, e0p, e0r, e1]

/-- The leftmost scan returns the capture of the first matching position:
if no position inside `u` matches and the pattern matches right after `u`,
the scan returns that capture. -/
theorem findMatch_append (u rest c : List Char)
    (hu : ∀ i, i < u.length → matchCore (List.drop i (u ++ rest)) = none)
    (hrest : matchCore rest = some c) :
    findMatch (u ++ rest) = some c := by
  induction u with
  | nil =>
    cases rest with
    | nil => exact absurd hrest (by simp [matchCore, igPat, stripPrefixCI])
    | cons r rs =>
      simp only [List.nil_append]
      unfold findMatch
      rw [hrest]
  | cons a u' ih =>
    have h0 : matchCore (a :: (u' ++ rest)) = none := by
      have := hu 0 (by simp)
      simpa using this
    simp only [List.cons_append]
    unfold findMatch
    rw [h0]
    exact ih (fun i hi => by
      have := hu (i + 1) (by simp; omega)
      simpa using this)

/-- The scan fails exactly when no start position matches. -/
theorem findMatch_eq_none_iff : ∀ l : List Char,
    findMatch l = none ↔ ∀ i, i < l.length → matchCore (l.drop i) = none := by
  intro l
  induction l with
  | nil => simp [findMatch]
  | cons x xs ih =>
    constructor
    · intro h i hi
      unfold findMatch at h
      cases hx : matchCore (x :: xs) with
      | some c => rw [hx] at h; exact absurd h (by simp)
      | none =>
        rw [hx] at h
        match i with
        | 0 => simpa using hx
        | j + 1 =>
          have := (ih.mp h) j (by simpa using hi)
          simpa using this
    · intro h
      unfold findMatch
      have h0 : matchCore (x :: xs) = none := by simpa using h 0 (by simp)
      rw [h0]
      exact ih.mpr (fun i hi => by
        have := h (i + 1) (by simp; omega)
        simpa using this)

/-- C5: (positive) for every string decomposing as
`u ++ "instagram.com/" ++ marker ++ "/" ++ code ++ suffix` — marker one of
`p`/`reel`/`tv`, `code` a non-empty run free of `/` and `?`, the suffix
starting with `/` or `?` (a trailing path or query), and no start
position inside `u` matching the pattern (the designated occurrence is
the leftmost) — `extractShortcode` returns exactly `code`;
(negative) for every string in which no start position matches the
pattern, `extractShortcode` returns nothing. -/
theorem extractShortcode_spec :
    (∀ u m c v : List Char,
      (m = ['p'] ∨ m = ['r', 'e', 'e', 'l'] ∨ m = ['t', 'v']) →
      c ≠ [] →
      (∀ ch ∈ c, notSep ch = true) →
      (∃ w, v = '/' :: w ∨ v = '?' :: w) →
      (∀ i, i < u.length →
        matchCore (List.drop i (u ++ (igPat ++ (m ++ '/' :: (c ++ v))))) = none) →
      InstagramHandler.extractShortcode ⟨u ++ (igPat ++ (m ++ '/' :: (c ++ v)))⟩
        = some ⟨c⟩) ∧
    (∀ s : String,
      (∀ i, i < s.data.length → matchCore (s.data.drop i) = none) →
      InstagramHandler.extractShortcode s = none) := by
  constructor
  · intro u m c v hm hc hch hv hu
    unfold InstagramHandler.extractShortcode
    have hfind : findMatch (u ++ (igPat ++ (m ++ '/' :: (c ++ v)))) = some c :=
      findMatch_append u _ c hu (matchCore_hit m c v hm hc hch hv)
    show (findMatch (u ++ (igPat ++ (m ++ '/' :: (c ++ v))))).map
        (fun c => (⟨c⟩ : String)) = some ⟨c⟩
    rw [hfind]
    rfl
  · intro s hs
    unfold InstagramHandler.extractShortcode
    rw [(findMatch_eq_none_iff s.data).mpr hs]
    rfl

/-- Witness for C5: a reel link with a query suffix yields its shortcode;
a non-Instagram string yields nothing. -/
theorem extractShortcode_spec_witness :
    InstagramHandler.extractShortcode
        "https://www.instagram.com/reel/ABC123/?igsh=1" = some "ABC123" ∧
    InstagramHandler.extractShortcode "https://example.com/watch?v=x" = none := by
  constructor
  · exact extractShortcode_spec.1 "https://www.".data ['r', 'e', 'e', 'l']
      "ABC123".data "/?igsh=1".data (Or.inr (Or.inl rfl)) (by decide)
      (by decide) ⟨"?igsh=1".data, Or.inl rfl⟩ (by decide)
  · exact extractShortcode_spec.2 "https://example.com/watch?v=x" (by decide)

/-! ## Delivery cleanup and counting (C1, C2, C7) -/

/-- A sample video item used in concrete runs. -/
def sampleVideo : MediaItem := ⟨MediaType.video, "https://cdn/x.mp4", 0, 0⟩

/-- A sample photo item used in concrete runs. -/
def samplePhoto : MediaItem := ⟨MediaType.image, "https://cdn/y.jpg", 0, 0⟩

/-- A world in which every download and every direct-URL send succeeds but
every file send fails. -/
def envSendFails : TelegramHandler.Env :=
  ⟨fun _ => true, fun _ => false, fun _ => true, fun _ => true⟩

/-- A world in which everything succeeds. -/
def envAllOk : TelegramHandler.Env :=
  ⟨fun _ => true, fun _ => true, fun _ => true, fun _ => true⟩

/-- A world in which downloads succeed, album sends fail, direct-URL sends
fail, and only the first file send succeeds. -/
def envGroupFallback : TelegramHandler.Env :=
  ⟨fun _ => true, fun n => n == 0, fun _ => false, fun _ => false⟩

/-- Counterexample to C1: a single-item request in which the download
succeeds and the file send fails.  The request ends "successfully" via the
URL fallback (count 1), yet the downloaded file (id 0) was created and
never deleted — an orphan remains in scratch storage after the
coordinator finishes. -/
theorem sendMediaItem_orphans_file_on_send_failure :
    (TelegramHandler.sendMediaItems envSendFails true [sampleVideo]
        TelegramHandler.initSt).1 = 1 ∧
    (TelegramHandler.sendMediaItems envSendFails true [sampleVideo]
        TelegramHandler.initSt).2.created = [0] ∧
    (TelegramHandler.sendMediaItems envSendFails true [sampleVideo]
        TelegramHandler.initSt).2.deleted = [] :=
  ⟨rfl, rfl, rfl⟩

/-- Counterexample to C2: two items in one group; the album send fails,
and in the individual fallback only the first item is delivered (its file
send succeeds; the second item's sends all fail).  `sendMediaGroup`
reports success because at least one fallback send succeeded, so
`sendMediaItems` returns the whole group size 2 while only 1 item was
actually delivered. -/
theorem sendMediaItems_overcounts_fallback_group :
    (TelegramHandler.sendMediaItems envGroupFallback true
        [sampleVideo, samplePhoto] TelegramHandler.initSt).1 = 2 ∧
    (TelegramHandler.sendMediaItems envGroupFallback true
        [sampleVideo, samplePhoto] TelegramHandler.initSt).2.delivered = 1 :=
  ⟨rfl, rfl⟩

/-- A successful download call produces a fresh file. -/
theorem downloadCall_true (env : TelegramHandler.Env) (st : TelegramHandler.St)
    (h : env.dlOk st.dlN = true) :
    TelegramHandler.downloadCall env st
      = (some st.nextFile,
        { st with
          dlN := st.dlN + 1
          nextFile := st.nextFile + 1
          created := st.created ++ [st.nextFile] }) := by
  simp [TelegramHandler.downloadCall, h]

/-- A failed download call produces no file. -/
theorem downloadCall_false (env : TelegramHandler.Env) (st : TelegramHandler.St)
    (h : env.dlOk st.dlN = false) :
    TelegramHandler.downloadCall env st = (none, { st with dlN := st.dlN + 1 }) := by
  simp [TelegramHandler.downloadCall, h]

/-- `sendMediaItem` bumps the delivered count exactly when it reports
success. -/
theorem sendMediaItem_delivered (env : TelegramHandler.Env) (it : MediaItem)
    (st : TelegramHandler.St) :
    (TelegramHandler.sendMediaItem env it st).2.delivered
      = st.delivered
        + (if (TelegramHandler.sendMediaItem env it st).1 then 1 else 0) := by
  cases hdl : env.dlOk st.dlN
  · unfold TelegramHandler.sendMediaItem
    rw [downloadCall_false env st hdl]
    cases hu : env.urlOk st.urlN <;> simp [hu]
  · unfold TelegramHandler.sendMediaItem
    rw [downloadCall_true env st hdl]
    cases hs : env.sendOk st.sendN <;> cases hu : env.urlOk st.urlN <;>
      simp [hs, hu]

/-- The individual-send loop bumps the delivered count by exactly its
reported success count. -/
theorem sendEachLoop_delivered (env : TelegramHandler.Env) :
    ∀ (items : List MediaItem) (st : TelegramHandler.St),
      (TelegramHandler.sendEachLoop env items st).2.delivered
        = st.delivered + (TelegramHandler.sendEachLoop env items st).1 := by
  intro items
  induction items with
  | nil => intro st; simp [TelegramHandler.sendEachLoop]
  | cons it rest ih =>
    intro st
    have h1 := sendMediaItem_delivered env it st
    rcases heq : TelegramHandler.sendMediaItem env it st with ⟨b, st1⟩
    rw [heq] at h1
    have h2 := ih st1
    rcases heq2 : TelegramHandler.sendEachLoop env rest st1 with ⟨cnt, st2⟩
    rw [heq2] at h2
    simp only [TelegramHandler.sendEachLoop, heq, heq2]
    simp only at h1 h2
    cases b <;> simp_all <;> omega

/-- When every download succeeds, `downloadAll` succeeds, creates one file
per item, and deletes nothing. -/
theorem downloadAll_allDl (env : TelegramHandler.Env)
    (hdl : ∀ n, env.dlOk n = true) :
    ∀ (items : List MediaItem) (st : TelegramHandler.St),
      ∃ fids st', TelegramHandler.downloadAll env items st = (some fids, st')
        ∧ st'.created = st.created ++ fids
        ∧ st'.deleted = st.deleted
        ∧ st'.delivered = st.delivered := by
  intro items
  induction items with
  | nil =>
    intro st
    exact ⟨[], st, rfl, by simp, rfl, rfl⟩
  | cons it rest ih =>
    intro st
    obtain ⟨fids, st', heq, hc, hd, hv⟩ := ih
      { st with
        dlN := st.dlN + 1
        nextFile := st.nextFile + 1
        created := st.created ++ [st.nextFile] }
    refine ⟨st.nextFile :: fids, st', ?_, ?_, ?_, ?_⟩
    · unfold TelegramHandler.downloadAll
      rw [downloadCall_true env st (hdl st.dlN)]
      dsimp only
      rw [heq]
    · rw [hc]; simp
    · rw [hd]
    · rw [hv]

/-- When every download and file send succeeds, `sendMediaItem` succeeds
and deletes exactly the one file it created. -/
theorem sendMediaItem_files_allOk (env : TelegramHandler.Env)
    (hdl : ∀ n, env.dlOk n = true) (hs : ∀ n, env.sendOk n = true)
    (it : MediaItem) (st : TelegramHandler.St) :
    (TelegramHandler.sendMediaItem env it st).1 = true
    ∧ ∃ f, (TelegramHandler.sendMediaItem env it st).2.created
            = st.created ++ [f]
        ∧ (TelegramHandler.sendMediaItem env it st).2.deleted
            = st.deleted ++ [f] := by
  unfold TelegramHandler.sendMediaItem
  rw [downloadCall_true env st (hdl st.dlN)]
  dsimp only
  simp only [hs, if_true]
  refine ⟨?_, st.nextFile, ?_, ?_⟩ <;> simp

/-- When every download and file send succeeds, the individual-send loop
deletes exactly the files it created. -/
theorem sendEachLoop_files_allOk (env : TelegramHandler.Env)
    (hdl : ∀ n, env.dlOk n = true) (hs : ∀ n, env.sendOk n = true) :
    ∀ (items : List MediaItem) (st : TelegramHandler.St),
      ∃ l, (TelegramHandler.sendEachLoop env items st).2.created
            = st.created ++ l
        ∧ (TelegramHandler.sendEachLoop env items st).2.deleted
            = st.deleted ++ l := by
  intro items
  induction items with
  | nil => intro st; exact ⟨[], by simp [TelegramHandler.sendEachLoop], by
    simp [TelegramHandler.sendEachLoop]⟩
  | cons it rest ih =>
    intro st
    have hall := sendMediaItem_files_allOk env hdl hs it st
    rcases heq : TelegramHandler.sendMediaItem env it st with ⟨b, st1⟩
    rw [heq] at hall
    obtain ⟨hb, f, hc1, hd1⟩ := hall
    obtain ⟨l, hc2, hd2⟩ := ih st1
    rcases heq2 : TelegramHandler.sendEachLoop env rest st1 with ⟨cnt, st2⟩
    rw [heq2] at hc2 hd2
    refine ⟨f :: l, ?_, ?_⟩
    · simp only [TelegramHandler.sendEachLoop, heq, heq2]
      simp only at hc1 hc2 ⊢
      rw [hc2, hc1]
      simp
    · simp only [TelegramHandler.sendEachLoop, heq, heq2]
      simp only at hd1 hd2 ⊢
      rw [hd2, hd1]
      simp

/-- When downloads and album sends all succeed, `sendMediaGroup` bumps the
delivered count by the whole group exactly when it reports success. -/
theorem sendMediaGroup_delivered_allOk (env : TelegramHandler.Env)
    (hdl : ∀ n, env.dlOk n = true) (hg : ∀ n, env.groupOk n = true)
    (g : List MediaItem) (st : TelegramHandler.St) :
    (TelegramHandler.sendMediaGroup env g st).2.delivered
      = st.delivered
        + (if (TelegramHandler.sendMediaGroup env g st).1 then g.length else 0) := by
  obtain ⟨fids, st1, heq, hc, hd, hv⟩ := downloadAll_allDl env hdl g st
  unfold TelegramHandler.sendMediaGroup
  rw [heq]
  cases hemp : g.isEmpty
  · simp only [hemp, Bool.false_eq_true, if_false]
    simp only [hg, if_true]
    simp [hv]
  · simp only [hemp, if_true]
    simp

/-- When downloads and album sends all succeed, `sendMediaGroup` deletes
exactly the files it created. -/
theorem sendMediaGroup_files_allOk (env : TelegramHandler.Env)
    (hdl : ∀ n, env.dlOk n = true) (hg : ∀ n, env.groupOk n = true)
    (g : List MediaItem) (st : TelegramHandler.St) :
    ∃ l, (TelegramHandler.sendMediaGroup env g st).2.created = st.created ++ l
      ∧ (TelegramHandler.sendMediaGroup env g st).2.deleted = st.deleted ++ l := by
  obtain ⟨fids, st1, heq, hc, hd, hv⟩ := downloadAll_allDl env hdl g st
  unfold TelegramHandler.sendMediaGroup
  rw [heq]
  cases hemp : g.isEmpty
  · simp only [hemp, Bool.false_eq_true, if_false]
    simp only [hg, if_true]
    exact ⟨fids, by simp [hc], by simp [hd]⟩
  · simp only [hemp, if_true]
    exact ⟨[], by simp, by simp⟩

/-- The group loop bumps the delivered count by exactly its reported
count, under all-successful downloads and album sends. -/
theorem sendGroupsLoop_delivered_allOk (env : TelegramHandler.Env)
    (hdl : ∀ n, env.dlOk n = true) (hg : ∀ n, env.groupOk n = true) :
    ∀ (groups : List (List MediaItem)) (st : TelegramHandler.St),
      (TelegramHandler.sendGroupsLoop env groups st).2.delivered
        = st.delivered + (TelegramHandler.sendGroupsLoop env groups st).1 := by
  intro groups
  induction groups with
  | nil => intro st; simp [TelegramHandler.sendGroupsLoop]
  | cons g rest ih =>
    intro st
    have h1 := sendMediaGroup_delivered_allOk env hdl hg g st
    rcases heq : TelegramHandler.sendMediaGroup env g st with ⟨b, st1⟩
    rw [heq] at h1
    have h2 := ih st1
    rcases heq2 : TelegramHandler.sendGroupsLoop env rest st1 with ⟨cnt, st2⟩
    rw [heq2] at h2
    simp only [TelegramHandler.sendGroupsLoop, heq, heq2]
    simp only at h1 h2
    cases b <;> simp_all <;> omega

/-- The group loop deletes exactly the files it created, under
all-successful downloads and album sends. -/
theorem sendGroupsLoop_files_allOk (env : TelegramHandler.Env)
    (hdl : ∀ n, env.dlOk n = true) (hg : ∀ n, env.groupOk n = true) :
    ∀ (groups : List (List MediaItem)) (st : TelegramHandler.St),
      ∃ l, (TelegramHandler.sendGroupsLoop env groups st).2.created
            = st.created ++ l
        ∧ (TelegramHandler.sendGroupsLoop env groups st).2.deleted
            = st.deleted ++ l := by
  intro groups
  induction groups with
  | nil => intro st; exact ⟨[], by simp [TelegramHandler.sendGroupsLoop], by
    simp [TelegramHandler.sendGroupsLoop]⟩
  | cons g rest ih =>
    intro st
    obtain ⟨l1, hc1, hd1⟩ := sendMediaGroup_files_allOk env hdl hg g st
    rcases heq : TelegramHandler.sendMediaGroup env g st with ⟨b, st1⟩
    rw [heq] at hc1 hd1
    obtain ⟨l2, hc2, hd2⟩ := ih st1
    rcases heq2 : TelegramHandler.sendGroupsLoop env rest st1 with ⟨cnt, st2⟩
    rw [heq2] at hc2 hd2
    refine ⟨l1 ++ l2, ?_, ?_⟩
    · simp only [TelegramHandler.sendGroupsLoop, heq, heq2]
      simp only at hc1 hc2 ⊢
      rw [hc2, hc1]
      simp
    · simp only [TelegramHandler.sendGroupsLoop, heq, heq2]
      simp only at hd1 hd2 ⊢
      rw [hd2, hd1]
      simp

/-- C1 (amended): files are deleted only along successful send paths.
When every download, file send and album send in a request succeeds,
every scratch file created during `sendMediaItems` is deleted by the time
it returns (in both grouped and individual modes); the counterexample run
shows a file whose send fails after a successful download is left behind
for the periodic sweep. -/
theorem sendMediaItems_cleanup_on_success (env : TelegramHandler.Env)
    (uMG : Bool) (items : List MediaItem)
    (hdl : ∀ n, env.dlOk n = true) (hs : ∀ n, env.sendOk n = true)
    (hg : ∀ n, env.groupOk n = true) :
    (TelegramHandler.sendMediaItems env uMG items TelegramHandler.initSt).2.deleted
      = (TelegramHandler.sendMediaItems env uMG items
          TelegramHandler.initSt).2.created := by
  match items with
  | [] => rfl
  | [it] =>
    have hall := sendMediaItem_files_allOk env hdl hs it TelegramHandler.initSt
    rcases heq : TelegramHandler.sendMediaItem env it TelegramHandler.initSt
      with ⟨b, st1⟩
    rw [heq] at hall
    obtain ⟨hb, f, hc, hd⟩ := hall
    simp only [TelegramHandler.sendMediaItems, heq]
    simp only at hc hd
    rw [hc, hd]
    rfl
  | it1 :: it2 :: restItems =>
    cases uMG
    · obtain ⟨l, hc, hd⟩ := sendEachLoop_files_allOk env hdl hs
        (it1 :: it2 :: restItems) TelegramHandler.initSt
      simp only [TelegramHandler.sendMediaItems, Bool.false_eq_true, if_false]
      rw [hc, hd]
      rfl
    · obtain ⟨l, hc, hd⟩ := sendGroupsLoop_files_allOk env hdl hg
        (TelegramHandler.splitIntoGroups (it1 :: it2 :: restItems))
        TelegramHandler.initSt
      simp only [TelegramHandler.sendMediaItems, if_true]
      rw [hc, hd]
      rfl

/-- Witness for the amended C1: a concrete all-successful two-item
grouped request ends with its deleted-file list equal to its created-file
list. -/
theorem sendMediaItems_cleanup_on_success_witness :
    (TelegramHandler.sendMediaItems envAllOk true [sampleVideo, samplePhoto]
        TelegramHandler.initSt).2.deleted
      = (TelegramHandler.sendMediaItems envAllOk true
          [sampleVideo, samplePhoto] TelegramHandler.initSt).2.created :=
  sendMediaItems_cleanup_on_success envAllOk true [sampleVideo, samplePhoto]
    (fun _ => rfl) (fun _ => rfl) (fun _ => rfl)

/-- C2 (amended): the returned count equals the number of items actually
delivered for single-item requests, for individual (non-grouped) mode
always, and for grouped mode whenever every download and album send
succeeds; the counterexample run shows a group that falls back to
individual sends is counted wholesale once any fallback send succeeds. -/
theorem sendMediaItems_count_exactness (env : TelegramHandler.Env)
    (items : List MediaItem) :
    ((∀ n, env.dlOk n = true) → (∀ n, env.groupOk n = true) →
      (TelegramHandler.sendMediaItems env true items TelegramHandler.initSt).1
        = (TelegramHandler.sendMediaItems env true items
            TelegramHandler.initSt).2.delivered) ∧
    ((TelegramHandler.sendMediaItems env false items TelegramHandler.initSt).1
        = (TelegramHandler.sendMediaItems env false items
            TelegramHandler.initSt).2.delivered) := by
  constructor
  · intro hdl hg
    match items with
    | [] => rfl
    | [it] =>
      have h1 := sendMediaItem_delivered env it TelegramHandler.initSt
      rcases heq : TelegramHandler.sendMediaItem env it TelegramHandler.initSt
        with ⟨b, st1⟩
      rw [heq] at h1
      simp only [TelegramHandler.sendMediaItems, heq]
      simp only at h1
      rw [h1]
      cases b <;> simp [TelegramHandler.initSt]
    | it1 :: it2 :: restItems =>
      have h1 := sendGroupsLoop_delivered_allOk env hdl hg
        (TelegramHandler.splitIntoGroups (it1 :: it2 :: restItems))
        TelegramHandler.initSt
      simp only [TelegramHandler.sendMediaItems, if_true]
      rw [h1]
      simp [TelegramHandler.initSt]
  · match items with
    | [] => rfl
    | [it] =>
      have h1 := sendMediaItem_delivered env it TelegramHandler.initSt
      rcases heq : TelegramHandler.sendMediaItem env it TelegramHandler.initSt
        with ⟨b, st1⟩
      rw [heq] at h1
      simp only [TelegramHandler.sendMediaItems, heq]
      simp only at h1
      rw [h1]
      cases b <;> simp [TelegramHandler.initSt]
    | it1 :: it2 :: restItems =>
      have h1 := sendEachLoop_delivered env (it1 :: it2 :: restItems)
        TelegramHandler.initSt
      simp only [TelegramHandler.sendMediaItems, Bool.false_eq_true, if_false]
      rw [h1]
      simp [TelegramHandler.initSt]

/-- Witness for the amended C2: a concrete two-item grouped request in a
world where downloads and album sends succeed returns a count equal to the
number of items actually delivered. -/
theorem sendMediaItems_count_exactness_witness :
    (TelegramHandler.sendMediaItems envSendFails true [sampleVideo, samplePhoto]
        TelegramHandler.initSt).1
      = (TelegramHandler.sendMediaItems envSendFails true
          [sampleVideo, samplePhoto] TelegramHandler.initSt).2.delivered :=
  (sendMediaItems_count_exactness envSendFails [sampleVideo, samplePhoto]).1
    (fun _ => rfl) (fun _ => rfl)
